import Mathlib

/-!
Verification development for the data-quality core of a legal-case scraper
(schema validation, SimHash near-duplicate detection, quality reporting).

The Python modules `quality/validator.py`, `quality/dedup.py` and
`quality/reporter.py` are shallowly embedded below: Python dicts become
insertion-ordered association lists, Python floats become exact rationals,
machine-independent text becomes `String`, and the two cryptographic digests
(sha256 of the raw text, md5 of a shingle) are abstract function parameters,
since no verified property depends on their concrete values.
-/

/-! ## Python dictionaries as insertion-ordered association lists

Python dicts preserve insertion order; assigning to an existing key keeps its
original position.  Lookups return the value of the (unique) binding.
-/

/-- `d.get(k)` — first binding wins (keys are unique in a real dict). -/
def dictGet {α : Type} (d : List (String × α)) (k : String) : Option α :=
  match d with
  | [] => none
  | (k2, v) :: rest => if k2 = k then some v else dictGet rest k

/-- `d.get(k, default)`. -/
def dictGetD {α : Type} (d : List (String × α)) (k : String) (dflt : α) : α :=
  (dictGet d k).getD dflt

/-- `d[k] = v`: overwrite in place if the key exists, else append. -/
def dictSet {α : Type} (d : List (String × α)) (k : String) (v : α) :
    List (String × α) :=
  match d with
  | [] => [(k, v)]
  | (k2, w) :: rest => if k2 = k then (k2, v) :: rest else (k2, w) :: dictSet rest k v

theorem dictGet_dictSet_same {α : Type} (d : List (String × α)) (k : String) (v : α) :
    dictGet (dictSet d k v) k = some v := by
  induction d with
  | nil => simp [dictSet, dictGet]
  | cons hd tl ih =>
    obtain ⟨k2, w⟩ := hd
    by_cases h : k2 = k <;> simp [dictSet, dictGet, h, ih]

theorem dictGet_dictSet_other {α : Type} (d : List (String × α)) (k j : String) (v : α)
    (hne : j ≠ k) : dictGet (dictSet d k v) j = dictGet d j := by
  induction d with
  | nil => simp [dictSet, dictGet, Ne.symm hne]
  | cons hd tl ih =>
    obtain ⟨k2, w⟩ := hd
    by_cases h : k2 = k
    · subst h
      simp [dictSet, dictGet, Ne.symm hne]
    · simp [dictSet, dictGet, h, ih]

/-! ## Python values

A case record maps field names to values.  The kinds that occur in this
repository are strings, ints, floats, booleans, lists of strings and `None`
(spec §3: "string, number, boolean, or ordered sequence of strings").
-/

inductive Value where
  | vnone : Value
  | vstr (s : String) : Value
  | vint (n : Int) : Value
  | vfloat (q : ℚ) : Value
  | vbool (b : Bool) : Value
  | vlist (l : List String) : Value
deriving DecidableEq, Repr

/-- The closed set of Python type objects the schema can mention. -/
inductive PyType where
  | pstr | pint | pfloat | pbool | plist
deriving DecidableEq, Repr

/-- `isinstance(v, t)` for a single type.  Note Python's `bool` is a
subclass of `int`, so a boolean is an instance of `int`. -/
def pyIsinstance (v : Value) (t : PyType) : Bool :=
  match v, t with
  | .vstr _, .pstr => true
  | .vint _, .pint => true
  | .vfloat _, .pfloat => true
  | .vbool _, .pbool => true
  | .vbool _, .pint => true
  | .vlist _, .plist => true
  | _, _ => false

/-- `isinstance(v, ts)` where `ts` embeds a type or tuple of types
(`FieldSpec.field_type`). -/
def isinstanceAny (v : Value) (ts : List PyType) : Bool :=
  ts.any (pyIsinstance v)

/-- Python truthiness (`if v:`) for the embedded value kinds. -/
def Value.isTruthy : Value → Bool
  | .vnone => false
  | .vstr s => s ≠ ""
  | .vint n => n ≠ 0
  | .vfloat q => q ≠ 0
  | .vbool b => b
  | .vlist l => l ≠ []

/-- `type(v).__name__`. -/
def Value.typeName : Value → String
  | .vnone => "NoneType"
  | .vstr _ => "str"
  | .vint _ => "int"
  | .vfloat _ => "float"
  | .vbool _ => "bool"
  | .vlist _ => "list"

/-- `str(v)` for the values an id field can hold (used by `add_batch` to
coerce ids; floats and lists keep a best-effort rendering, which no claim
depends on). -/
def Value.pyToString : Value → String
  | .vnone => "None"
  | .vstr s => s
  | .vint n => toString n
  | .vfloat q => toString q
  | .vbool b => if b then "True" else "False"
  | .vlist l => toString l

/-- A case record: a Python dict from field names to values (unique keys). -/
def CaseRecord : Type := List (String × Value)

/-- `case.get(name)`: `None` both when the key is absent and when it is
bound to `None`, exactly as Python's `dict.get`. -/
def CaseRecord.pyGet (c : CaseRecord) (k : String) : Value :=
  dictGetD c k .vnone

/-- `case.get(name, default)` with a non-`None` default: the default is used
only when the key is absent. -/
def CaseRecord.pyGetD (c : CaseRecord) (k : String) (dflt : Value) : Value :=
  dictGetD c k dflt

/-! ## `quality/validator.py` — schema-based validation -/

inductive Severity where
  | error | warning | info
deriving DecidableEq, Repr

/-- `Severity.value`: the string payload of the enum member. -/
def Severity.value : Severity → String
  | .error => "error"
  | .warning => "warning"
  | .info => "info"

/-- `ValidationIssue` dataclass (`value` defaults to `None`). -/
structure ValidationIssue where
  field : String
  severity : Severity
  message : String
  value : Value := .vnone
deriving DecidableEq, Repr

/-- `ValidationResult` dataclass. -/
structure ValidationResult where
  case_id : Value
  valid : Bool
  issues : List ValidationIssue := []
  completeness_score : ℚ := 0
  field_scores : List (String × ℚ) := []
deriving DecidableEq, Repr

/-- `FieldSpec` dataclass.  `field_type` embeds a type or tuple of types as a
list; `pattern` embeds the compiled regex as its search predicate
(`re.search(pattern, ·) is not None`); `custom_check` is already a function
in the source. -/
structure FieldSpec where
  name : String
  required : Bool := false
  field_type : List PyType := [.pstr]
  min_length : Option Int := none
  max_length : Option Int := none
  pattern : Option (String → Bool) := none
  custom_check : Option (Value → Option String) := none
  weight : ℚ := 1

/-- Python truthiness of an `int | None` field (`None` and `0` are falsy). -/
def optIntTruthy : Option Int → Bool
  | none => false
  | some n => n ≠ 0

/-- Python's repr of a type object, rendered with `\x27` for the quote. -/
def PyType.clsRepr : PyType → String
  | .pstr => "<class \x27str\x27>"
  | .pint => "<class \x27int\x27>"
  | .pfloat => "<class \x27float\x27>"
  | .pbool => "<class \x27bool\x27>"
  | .plist => "<class \x27list\x27>"

/-- Repr of `FieldSpec.field_type` in the type-mismatch message: a bare
class repr for a single type, a tuple repr for a tuple of types. -/
def fieldTypeRepr : List PyType → String
  | [t] => t.clsRepr
  | ts => "(" ++ String.intercalate ", " (ts.map PyType.clsRepr) ++ ")"

/-- `re.search(r".+\d+.*", s)` for the default citation spec: some digit is
preceded by a (non-newline) character.  `\d` is embedded as `Char.isDigit`. -/
def citationSearch (s : String) : Bool :=
  (s.toList.zip (s.toList.drop 1)).any (fun p => p.1 ≠ '\n' && p.2.isDigit)

/-- The separator class: a dash or a forward slash. -/
def sepChar (c : Char) : Bool := c = '-' || c = '/'

/-- Match digit pair, separator, digit pair (the `\d{1,2}` sep `\d{1,2}` tail of the date regex) at the head of the character list (a trailing
digit may be followed by anything). -/
def dateTail : List Char → Bool
  | a :: b :: c :: rest =>
      a.isDigit &&
        ((sepChar b && c.isDigit) ||
          (b.isDigit && sepChar c && (match rest with
            | x :: _ => x.isDigit
            | [] => false)))
  | _ => false

/-- Match four digits and a separator (`\d{4}` then the separator class) then `dateTail` at the head of the character list. -/
def dateAt : List Char → Bool
  | a :: b :: c :: d :: e :: rest =>
      a.isDigit && b.isDigit && c.isDigit && d.isDigit && sepChar e && dateTail rest
  | _ => false

/-- The search for the default date regex (four digits, separator, one or two digits, separator, one or two digits): the pattern matches
at some position. -/
def dateSearch (s : String) : Bool :=
  s.toList.tails.any dateAt

/-- `DEFAULT_CASE_SCHEMA`: the fixed default schema of 10 field specs. -/
def DEFAULT_CASE_SCHEMA : List FieldSpec :=
  [ { name := "id", required := true, field_type := [.pstr], min_length := some 1,
      weight := 1 },
    { name := "title", required := true, field_type := [.pstr], min_length := some 5,
      weight := 1 },
    { name := "citation", required := false, field_type := [.pstr], min_length := some 3,
      pattern := some citationSearch, weight := 9/10 },
    { name := "court", required := false, field_type := [.pstr], min_length := some 2,
      weight := 4/5 },
    { name := "date", required := false, field_type := [.pstr],
      pattern := some dateSearch, weight := 7/10 },
    { name := "year", required := false, field_type := [.pint, .pstr], weight := 7/10 },
    { name := "judges", required := false, field_type := [.plist, .pstr], weight := 1/2 },
    { name := "text", required := true, field_type := [.pstr], min_length := some 100,
      weight := 1 },
    { name := "headnotes", required := false, field_type := [.pstr, .plist], weight := 2/5 },
    { name := "statutes_cited", required := false, field_type := [.plist, .pstr],
      weight := 3/10 } ]

/-- `CaseValidator` (the derived `_field_map` cache is only used by
`add_field`/`remove_field` and is not modelled). -/
structure CaseValidator where
  schema : List FieldSpec
  strict : Bool := false

/-- `CaseValidator.__init__`: a missing schema defaults to an independent
copy of `DEFAULT_CASE_SCHEMA` (copying is implicit under value semantics). -/
def CaseValidator.init (schema : Option (List FieldSpec) := none)
    (strict : Bool := false) : CaseValidator :=
  { schema := schema.getD DEFAULT_CASE_SCHEMA, strict := strict }

/-- `CaseValidator._validate_field` (validator.py lines 245-338), with the
validator's `strict` flag passed explicitly (it is the only part of `self`
the source method reads).  Returns `(score, issues)`. -/
def CaseValidator.validate_field (strict : Bool) (c : CaseRecord) (spec : FieldSpec) :
    ℚ × List ValidationIssue :=
  let value := c.pyGet spec.name
  -- Missing field (`case.get` yields None when absent or explicitly null)
  if value = .vnone then
    (0, if spec.required then
        [{ field := spec.name, severity := .error, message := "Required field is missing" }]
      else [])
  -- Type check
  else if isinstanceAny value spec.field_type = false then
    let sev0 : Severity := if spec.required then .error else .warning
    let sev : Severity := if strict then .error else sev0
    (1/5,
      [{ field := spec.name, severity := sev,
         message := "Expected type " ++ fieldTypeRepr spec.field_type ++ ", got " ++
           value.typeName,
         value := .vstr value.typeName }])
  else
    match value with
    | .vstr s =>
      -- Length checks (for strings)
      if optIntTruthy spec.min_length && decide ((s.length : Int) < spec.min_length.getD 0) then
        let m := spec.min_length.getD 0
        (min ((s.length : ℚ) / (m : ℚ)) (4/5),
          [{ field := spec.name,
             severity := if spec.required then .error else .warning,
             message := "Too short: " ++ toString s.length ++ " chars (min: " ++
               toString m ++ ")",
             value := .vint s.length }])
      else if optIntTruthy spec.max_length && decide ((s.length : Int) > spec.max_length.getD 0) then
        (9/10,
          [{ field := spec.name, severity := .warning,
             message := "Too long: " ++ toString s.length ++ " chars (max: " ++
               toString (spec.max_length.getD 0) ++ ")",
             value := .vint s.length }])
      -- Pattern check
      else if (match spec.pattern with
               | some search => !(search s)
               | none => false) then
        (7/10,
          [{ field := spec.name, severity := .warning,
             message := "Does not match expected pattern",
             value := .vstr (s.take 100) }])
      -- Custom check (a truthy message means failure)
      else if (match spec.custom_check with
               | some chk => (chk value).getD "" != ""
               | none => false) then
        (4/5,
          [{ field := spec.name, severity := .warning,
             message := (match spec.custom_check with
                         | some chk => (chk value).getD ""
                         | none => ""),
             value := value }])
      -- Length-based bonus for text fields
      else if optIntTruthy spec.min_length then
        (max (min ((s.length : ℚ) / ((spec.min_length.getD 0 : ℚ) * 10)) 1) (9/10), [])
      else
        (1, [])
    | _ =>
      -- Non-string values skip the string-only checks
      if (match spec.custom_check with
          | some chk => (chk value).getD "" != ""
          | none => false) then
        (4/5,
          [{ field := spec.name, severity := .warning,
             message := (match spec.custom_check with
                         | some chk => (chk value).getD ""
                         | none => ""),
             value := value }])
      else
        (1, [])

/-- `CaseValidator.validate` (validator.py lines 191-236). -/
def CaseValidator.validate (v : CaseValidator) (c : CaseRecord) : ValidationResult :=
  let case_id := c.pyGetD "id" (.vstr "<unknown>")
  let total_weight := (v.schema.map FieldSpec.weight).sum
  let acc := v.schema.foldl
    (fun (acc : List (String × ℚ) × List ValidationIssue) spec =>
      let r := CaseValidator.validate_field v.strict c spec
      (dictSet acc.1 spec.name r.1, acc.2 ++ r.2))
    ([], [])
  let field_scores := acc.1
  let weighted_sum := (v.schema.map (fun spec =>
    dictGetD field_scores spec.name 0 * spec.weight)).sum
  let completeness := if 0 < total_weight then weighted_sum / total_weight else 0
  let known_fields := v.schema.map FieldSpec.name ++ ["_scraped_at"]
  let issues := acc.2 ++ (c.map Prod.fst).filterMap (fun key =>
    if !(known_fields.contains key) && !(key.startsWith "_") then
      some { field := key, severity := Severity.info,
             message := "Unknown field not in schema" }
    else none)
  let has_errors := issues.any (fun i => i.severity == Severity.error)
  { case_id := case_id
    valid := !has_errors
    issues := issues
    completeness_score := completeness
    field_scores := field_scores }

/-- `CaseValidator.validate_batch`. -/
def CaseValidator.validate_batch (v : CaseValidator) (cs : List CaseRecord) :
    List ValidationResult :=
  cs.map v.validate

/-! ## `quality/dedup.py` — fingerprinting and duplicate detection -/

/-- `DuplicatePair` dataclass. -/
structure DuplicatePair where
  id_a : String
  id_b : String
  similarity : ℚ
  method : String
deriving DecidableEq, Repr

/-- Fuel-driven popcount kernel: `popCountFuel fuel n` is the number of set
bits of `n` as long as `fuel` bounds the bit length (halving `n` each step
while spending one fuel, so `fuel = n` is always enough). -/
def popCountFuel : ℕ → ℕ → ℕ
  | 0, _ => 0
  | _ + 1, 0 => 0
  | fuel + 1, n + 1 => (n + 1) % 2 + popCountFuel fuel ((n + 1) / 2)

/-- `bin(n).count("1")`: the number of set bits of `n`. -/
def popCount (n : ℕ) : ℕ := popCountFuel n n

/-- `ContentFingerprinter`.  The md5 digest of a shingle is kept as an
abstract field `md5Num` (its concrete value is irrelevant to every verified
property); `_hash_shingle` reduces it modulo `2 ^ hash_bits`. -/
structure ContentFingerprinter where
  hash_bits : ℕ
  ngram_size : ℕ
  normalize : Bool
  md5Num : String → ℕ

/-- `ContentFingerprinter.__init__`: rejects any width other than 64 or 128. -/
def ContentFingerprinter.init (md5Num : String → ℕ) (hash_bits : ℕ := 128)
    (ngram_size : ℕ := 3) (normalize : Bool := true) :
    Except String ContentFingerprinter :=
  if hash_bits = 64 ∨ hash_bits = 128 then
    .ok { hash_bits := hash_bits, ngram_size := ngram_size, normalize := normalize,
          md5Num := md5Num }
  else
    .error "hash_bits must be 64 or 128"

theorem list_length_dropWhile_le {p : Char → Bool} (l : List Char) :
    (l.dropWhile p).length ≤ l.length := by
  induction l with
  | nil => simp
  | cons c rest ih =>
    by_cases h : p c
    · simp only [List.dropWhile_cons, h, if_true, List.length_cons]
      exact le_trans ih (Nat.le_succ _)
    · simp [List.dropWhile_cons, h]

/-- Collapse every run of whitespace to a single space (the `\s+` → one
space substitution; `\s` is embedded as `Char.isWhitespace`). -/
def collapseWs : List Char → List Char
  | [] => []
  | c :: rest =>
    if c.isWhitespace then
      ' ' :: collapseWs (rest.dropWhile Char.isWhitespace)
    else
      c :: collapseWs rest
termination_by l => l.length
decreasing_by
  · exact Nat.lt_succ_of_le (list_length_dropWhile_le _)
  · simp [List.length_cons]

/-- A word character or whitespace (the complement of the stripped class in
the substitution removing every char outside `\w` and `\s`).  Python's `\w`
is alphanumerics plus underscore (embedded over ASCII). -/
def wordOrSpace (c : Char) : Bool := c.isAlphanum || c = '_' || c.isWhitespace

/-- `ContentFingerprinter._normalize`: lower-case, collapse whitespace runs,
drop non-word non-space characters, strip both ends. -/
def ContentFingerprinter.normalizeText (text : String) : String :=
  let t1 := text.toList.map Char.toLower
  let t2 := collapseWs t1
  let t3 := t2.filter wordOrSpace
  String.mk ((t3.dropWhile Char.isWhitespace).reverse.dropWhile Char.isWhitespace).reverse

/-- `ContentFingerprinter._shingle`: overlapping character n-grams; a text
shorter than `ngram_size` is its own sole shingle. -/
def ContentFingerprinter.shingle (fp : ContentFingerprinter) (text : String) :
    List String :=
  let cs := text.toList
  if cs.length < fp.ngram_size then [text]
  else (List.range (cs.length - fp.ngram_size + 1)).map
    (fun i => String.mk ((cs.drop i).take fp.ngram_size))

/-- `ContentFingerprinter._hash_shingle`: the md5 digest as an integer,
reduced modulo `2 ^ hash_bits`. -/
def ContentFingerprinter.hash_shingle (fp : ContentFingerprinter) (s : String) : ℕ :=
  fp.md5Num s % 2 ^ fp.hash_bits

/-- `ContentFingerprinter.fingerprint`: SimHash — accumulate a signed weight
per bit position over all shingle hashes, then emit bit `i` iff weight `i`
is positive. -/
def ContentFingerprinter.fingerprint (fp : ContentFingerprinter) (text : String) : ℕ :=
  let text := if fp.normalize then ContentFingerprinter.normalizeText text else text
  if text = "" then 0
  else
    let shingles := fp.shingle text
    if shingles = [] then 0
    else
      let vector : List ℤ := shingles.foldl
        (fun v sh =>
          let h := fp.hash_shingle sh
          v.mapIdx (fun i x => if h.testBit i then x + 1 else x - 1))
        (List.replicate fp.hash_bits 0)
      (List.range fp.hash_bits).foldl
        (fun acc i => if 0 < vector.getD i 0 then acc ||| 1 <<< i else acc) 0

/-- `ContentFingerprinter.similarity` (dedup.py lines 103-125): 1 for two
zero fingerprints, 0 when exactly one is zero, else the normalized Hamming
similarity. -/
def ContentFingerprinter.similarity (fp : ContentFingerprinter) (hash_a hash_b : ℕ) : ℚ :=
  if hash_a = 0 ∧ hash_b = 0 then 1
  else if hash_a = 0 ∨ hash_b = 0 then 0
  else 1 - (popCount (hash_a ^^^ hash_b) : ℚ) / (fp.hash_bits : ℚ)

/-- `DuplicateDetector`: the index state.  The maps are insertion-ordered
dicts exactly as in CPython. -/
structure DuplicateDetector where
  threshold : ℚ
  fingerprinter : ContentFingerprinter
  fingerprints : List (String × ℕ)
  exact_hashes : List (String × String)
  cases : List (String × CaseRecord)

/-- `DuplicateDetector.__init__` (the fingerprinter is built with the given
widths; `md5Num` abstracts the md5 digest). -/
def DuplicateDetector.init (md5Num : String → ℕ) (threshold : ℚ := 17/20)
    (hash_bits : ℕ := 128) (ngram_size : ℕ := 3) : Except String DuplicateDetector := do
  let fp ← ContentFingerprinter.init md5Num hash_bits ngram_size
  return { threshold := threshold, fingerprinter := fp,
           fingerprints := [], exact_hashes := [], cases := [] }

/-- `case.get(text_field, "")` read as a string.  The source immediately
calls `text.encode(...)`/`text.lower()` on a truthy value, so a record whose
text field holds a non-string is outside the embedding (it raises in the
source); such values are read as `""` here and theorems about `add` carry a
`textFieldOk` hypothesis excluding them. -/
def CaseRecord.textAt (c : CaseRecord) (text_field : String) : String :=
  match dictGet c text_field with
  | some (.vstr s) => s
  | _ => ""

/-- The record's text field, if present, holds a string (see
`CaseRecord.textAt`).  An absent key is fine (`case.get` defaults to `""`). -/
def CaseRecord.textFieldOk (c : CaseRecord) (text_field : String) : Bool :=
  match dictGet c text_field with
  | none => true
  | some (.vstr _) => true
  | some _ => false

/-- `DuplicateDetector.add` (dedup.py lines 180-198).  `sha256hex` abstracts
`hashlib.sha256(text.encode()).hexdigest()`. -/
def DuplicateDetector.add (sha256hex : String → String) (d : DuplicateDetector)
    (case_id : String) (c : CaseRecord) (text_field : String := "text") :
    DuplicateDetector :=
  let text := c.textAt text_field
  let d := { d with cases := dictSet d.cases case_id c }
  -- Exact content hash (only stored for truthy text)
  let d := if text ≠ "" then
      { d with exact_hashes := dictSet d.exact_hashes case_id (sha256hex text) }
    else d
  -- SimHash fingerprint (always stored)
  { d with fingerprints := dictSet d.fingerprints case_id (d.fingerprinter.fingerprint text) }

/-- `DuplicateDetector.add_batch` (dedup.py lines 200-205): `add` every
record whose id field is truthy, coercing the id with `str`. -/
def DuplicateDetector.add_batch (sha256hex : String → String) (d : DuplicateDetector)
    (cs : List CaseRecord) (id_field : String := "id") (text_field : String := "text") :
    DuplicateDetector :=
  cs.foldl (fun d c =>
    let case_id := c.pyGet id_field
    if case_id.isTruthy then
      DuplicateDetector.add sha256hex d case_id.pyToString c text_field
    else d) d

/-- Stable descending insertion by key: the inserted element (which precedes
the accumulated elements in the original list) goes before the first element
whose key is not larger, so equal keys keep their original order — the
behavior of Python's stable `sort(..., reverse=True)`. -/
def insertDescBy {α : Type} (key : α → ℚ) (x : α) : List α → List α
  | [] => [x]
  | y :: ys => if key y ≤ key x then x :: y :: ys else y :: insertDescBy key x ys

/-- Stable sort, descending by key (`list.sort(key=..., reverse=True)`). -/
def sortDescBy {α : Type} (key : α → ℚ) (l : List α) : List α :=
  l.foldr (insertDescBy key) []

/-- Unordered index pairs in the source's double-loop order:
`(l[i], l[j])` for `i < j`. -/
def upairs {α : Type} : List α → List (α × α)
  | [] => []
  | x :: xs => xs.map (fun y => (x, y)) ++ upairs xs

/-- The canonical pair key `(min(a, b), max(a, b))` under Python's
lexicographic string comparison. -/
def canonKey (a b : String) : String × String :=
  if b < a then (b, a) else (a, b)

/-- Phase-1 grouping: a `defaultdict(list)` keyed by content hash, built by
appending each id to its hash's group in index order. -/
def hashGroups (eh : List (String × String)) : List (String × List String) :=
  eh.foldl (fun groups kv =>
    match dictGet groups kv.2 with
    | some g => dictSet groups kv.2 (g ++ [kv.1])
    | none => groups ++ [(kv.2, [kv.1])]) []

/-- `DuplicateDetector.find_duplicates` (dedup.py lines 207-267): exact
phase over hash groups, near phase over all remaining unordered id pairs,
result sorted by similarity descending. -/
def DuplicateDetector.find_duplicates (d : DuplicateDetector) : List DuplicatePair :=
  -- Phase 1: exact duplicates via hash grouping
  let groups := hashGroups d.exact_hashes
  let acc1 := groups.foldl (fun acc g =>
      if 1 < g.2.length then
        (upairs g.2).foldl (fun (acc : List (String × String) × List DuplicatePair) p =>
          let pair_key := canonKey p.1 p.2
          if pair_key ∈ acc.1 then acc
          else (acc.1 ++ [pair_key],
                acc.2 ++ [{ id_a := p.1, id_b := p.2, similarity := 1,
                            method := "exact_hash" }])) acc
      else acc)
    (([] : List (String × String)), ([] : List DuplicatePair))
  -- Phase 2: near-duplicates via pairwise SimHash comparison
  let ids := d.fingerprints.map Prod.fst
  let acc2 := (upairs ids).foldl (fun acc p =>
      let pair_key := canonKey p.1 p.2
      if pair_key ∈ acc.1 then acc
      else
        let sim := d.fingerprinter.similarity (dictGetD d.fingerprints p.1 0)
          (dictGetD d.fingerprints p.2 0)
        if d.threshold ≤ sim then
          (acc.1 ++ [pair_key],
           acc.2 ++ [{ id_a := p.1, id_b := p.2, similarity := sim,
                       method := "simhash" }])
        else acc) acc1
  sortDescBy DuplicatePair.similarity acc2.2

/-- `DuplicateDetector.find_similar` (dedup.py lines 269-300): a `KeyError`
when the id was never indexed, else every other indexed id scored, sorted by
similarity descending (stable), truncated to `top_k`. -/
def DuplicateDetector.find_similar (d : DuplicateDetector) (case_id : String)
    (top_k : ℕ := 10) : Except String (List DuplicatePair) :=
  match dictGet d.fingerprints case_id with
  | none => .error ("Case " ++ case_id ++ " not in index")
  | some target_fp =>
    let similarities := (d.fingerprints.filter (fun kv => kv.1 != case_id)).map
      (fun kv => ({ id_a := case_id, id_b := kv.1,
                    similarity := d.fingerprinter.similarity target_fp kv.2,
                    method := "simhash" } : DuplicatePair))
    .ok ((sortDescBy DuplicatePair.similarity similarities).take top_k)

/-! ## `quality/reporter.py` — aggregation into quality reports

`datetime.now().isoformat()` is embedded as an explicit `now : String`
argument threaded to the aggregation routine: it is the single
non-deterministic input of the module.
-/

/-- One `top_issues` entry: the grouped issue details plus its count. -/
structure TopIssue where
  field : String
  message : String
  severity : String
  count : ℕ
deriving DecidableEq, Repr

/-- `QualityReport` dataclass. -/
structure QualityReport where
  generated_at : String
  total_cases : ℕ
  valid_cases : ℕ
  invalid_cases : ℕ
  avg_completeness : ℚ
  field_completeness : List (String × ℚ)
  severity_counts : List (String × ℕ)
  top_issues : List TopIssue
  completeness_distribution : List (String × ℕ)
deriving DecidableEq, Repr

/-- `Counter[k] += 1` on an insertion-ordered counter. -/
def counterAdd {κ : Type} [DecidableEq κ] (c : List (κ × ℕ)) (k : κ) : List (κ × ℕ) :=
  match c with
  | [] => [(k, 1)]
  | (k2, n) :: rest => if k2 = k then (k2, n + 1) :: rest else (k2, n) :: counterAdd rest k

/-- The per-field running `(total, count)` pair: the two `defaultdict`s of
the source are updated in lockstep, so they share one insertion order. -/
def fieldTotals (results : List ValidationResult) : List (String × (ℚ × ℕ)) :=
  results.foldl (fun acc r =>
    r.field_scores.foldl (fun acc kv =>
      match dictGet acc kv.1 with
      | some tc => dictSet acc kv.1 (tc.1 + kv.2, tc.2 + 1)
      | none => acc ++ [(kv.1, (kv.2, 1))]) acc) []

/-- The issue-group counter keyed by `(field, message, severity.value)`,
skipping Info issues. -/
def issueGroups (results : List ValidationResult) :
    List ((String × String × String) × ℕ) :=
  results.foldl (fun acc r =>
    r.issues.foldl (fun acc i =>
      if i.severity = .info then acc
      else counterAdd acc (i.field, i.message, i.severity.value)) acc) []

/-- The completeness bucket (over percent) a score falls into. -/
def bucketFor (score : ℚ) : String :=
  let pct := score * 100
  if pct < 20 then "0-20%"
  else if pct < 40 then "20-40%"
  else if pct < 60 then "40-60%"
  else if pct < 80 then "60-80%"
  else "80-100%"

/-- `QualityReporter._aggregate` (reporter.py lines 145-229). -/
def QualityReporter.aggregate (now : String) (results : List ValidationResult) :
    QualityReport :=
  let total := results.length
  if total = 0 then
    { generated_at := now, total_cases := 0, valid_cases := 0, invalid_cases := 0,
      avg_completeness := 0, field_completeness := [], severity_counts := [],
      top_issues := [], completeness_distribution := [] }
  else
    let valid_count := results.countP (fun r => r.valid)
    let avg_completeness := (results.map ValidationResult.completeness_score).sum / (total : ℚ)
    let field_completeness := (fieldTotals results).map
      (fun kv => (kv.1, kv.2.1 / (kv.2.2 : ℚ)))
    let severity_counts := results.foldl (fun acc r =>
      r.issues.foldl (fun acc i => counterAdd acc i.severity.value) acc) []
    let top_issues := ((sortDescBy (fun kv => ((kv.2 : ℕ) : ℚ)) (issueGroups results)).take 20).map
      (fun kv => { field := kv.1.1, message := kv.1.2.1, severity := kv.1.2.2,
                   count := kv.2 })
    let buckets := results.foldl (fun acc r => counterAdd acc (bucketFor r.completeness_score))
      [("0-20%", 0), ("20-40%", 0), ("40-60%", 0), ("60-80%", 0), ("80-100%", 0)]
    { generated_at := now
      total_cases := total
      valid_cases := valid_count
      invalid_cases := total - valid_count
      avg_completeness := avg_completeness
      field_completeness := field_completeness
      severity_counts := severity_counts
      top_issues := top_issues
      completeness_distribution := buckets }

/-- `QualityReporter`: carries the validator used by `analyze`. -/
structure QualityReporter where
  validator : CaseValidator

/-- `QualityReporter.__init__` (default validator when none given). -/
def QualityReporter.init (validator : Option CaseValidator := none) : QualityReporter :=
  { validator := validator.getD (CaseValidator.init) }

/-- `QualityReporter.analyze` (reporter.py lines 120-131). -/
def QualityReporter.analyze (rep : QualityReporter) (now : String)
    (cs : List CaseRecord) : QualityReport :=
  QualityReporter.aggregate now (rep.validator.validate_batch cs)

/-- `QualityReporter.analyze_results` (reporter.py lines 133-143). -/
def QualityReporter.analyze_results (_rep : QualityReporter) (now : String)
    (results : List ValidationResult) : QualityReport :=
  QualityReporter.aggregate now results

/-! ## Claim theorems -/

/-- Booleanized "no Error-severity issue" condition, in `iff` form. -/
theorem bool_no_error_iff (l : List ValidationIssue) :
    (!(l.any fun i => i.severity == Severity.error)) = true ↔
      ∀ i ∈ l, i.severity ≠ Severity.error := by
  simp

/-- C1: for every record, the ValidationResult returned by
`CaseValidator.validate` satisfies `valid == (no issue has severity Error)`:
`valid` is true exactly when the issues list contains no Error-severity
entry. -/
theorem validate_valid_iff_no_error (v : CaseValidator) (c : CaseRecord) :
    (v.validate c).valid = true ↔
      ∀ i ∈ (v.validate c).issues, i.severity ≠ Severity.error := by
  unfold CaseValidator.validate
  exact bool_no_error_iff _

/-- C10: a field whose key is present but bound to `None` is handled by the
missing-field rule: one Error issue "Required field is missing" and score 0
when required, no issue and score 0 when optional; the type-mismatch rule
never sees the null value. -/
theorem validate_field_null_as_missing (strict : Bool) (c : CaseRecord)
    (spec : FieldSpec) (h : dictGet c spec.name = some Value.vnone) :
    CaseValidator.validate_field strict c spec =
      (0, if spec.required then
            [{ field := spec.name, severity := .error,
               message := "Required field is missing" }]
          else []) := by
  unfold CaseValidator.validate_field
  simp [CaseRecord.pyGet, dictGetD, h]

theorem validate_field_null_as_missing_witness :
    dictGet ([("title", Value.vnone)] : CaseRecord) "title" = some Value.vnone ∧
    CaseValidator.validate_field false [("title", Value.vnone)]
        { name := "title", required := true } =
      (0, [{ field := "title", severity := .error,
             message := "Required field is missing" }]) :=
  ⟨rfl, validate_field_null_as_missing false [("title", Value.vnone)]
    { name := "title", required := true } rfl⟩

/-- C4: for a FieldSpec with `min_length` set and a record whose value for
that field is a string shorter than `min_length` (of an allowed kind), the
field check records exactly one issue — Error if required, Warning
otherwise — and returns score `min(length / min_length, 0.8)`. -/
theorem validate_field_too_short (strict : Bool) (c : CaseRecord) (spec : FieldSpec)
    (s : String) (m : Int)
    (hv : c.pyGet spec.name = Value.vstr s)
    (hm : spec.min_length = some m)
    (hshort : (s.length : Int) < m)
    (hty : isinstanceAny (Value.vstr s) spec.field_type = true) :
    CaseValidator.validate_field strict c spec =
      (min ((s.length : ℚ) / (m : ℚ)) (4/5),
        [{ field := spec.name,
           severity := if spec.required then .error else .warning,
           message := "Too short: " ++ toString s.length ++ " chars (min: " ++
             toString m ++ ")",
           value := .vint s.length }]) := by
  have hm0 : m ≠ 0 := by
    intro h0
    rw [h0] at hshort
    omega
  unfold CaseValidator.validate_field
  rw [hv]
  simp [hm, hty, hshort, optIntTruthy, hm0]

theorem validate_field_too_short_witness :
    (CaseRecord.pyGet [("f", Value.vstr "ab")] "f" = Value.vstr "ab") ∧
    CaseValidator.validate_field false [("f", Value.vstr "ab")]
        { name := "f", required := true, field_type := [.pstr], min_length := some 5 } =
      (min ((("ab".length : ℕ) : ℚ) / ((5 : Int) : ℚ)) (4/5),
        [{ field := "f", severity := .error,
           message := "Too short: " ++ toString ("ab".length) ++ " chars (min: " ++
             toString (5 : Int) ++ ")",
           value := .vint ("ab".length : ℕ) }]) :=
  ⟨rfl, validate_field_too_short false [("f", Value.vstr "ab")]
    { name := "f", required := true, field_type := [.pstr], min_length := some 5 }
    "ab" 5 rfl rfl (by decide) rfl⟩

/-- Rule 2 (type mismatch) fires for this record and field spec: a value is
present (not null) and its kind is not among the allowed types. -/
def hitsTypeRule (c : CaseRecord) (spec : FieldSpec) : Bool :=
  (c.pyGet spec.name != Value.vnone) &&
    !(isinstanceAny (c.pyGet spec.name) spec.field_type)

/-- The score returned by `_validate_field` never depends on `strict`. -/
theorem validate_field_score_strict_irrel (c : CaseRecord) (spec : FieldSpec) :
    (CaseValidator.validate_field true c spec).1 =
      (CaseValidator.validate_field false c spec).1 := by
  unfold CaseValidator.validate_field
  by_cases h1 : c.pyGet spec.name = Value.vnone
  · simp [h1]
  · by_cases h2 : isinstanceAny (c.pyGet spec.name) spec.field_type
    · simp [h1, h2]
    · simp [h1, h2]

/-- Outside rule 2, `_validate_field` is entirely independent of `strict`. -/
theorem validate_field_strict_irrel_of_no_type_rule (c : CaseRecord) (spec : FieldSpec)
    (h : hitsTypeRule c spec = false) :
    CaseValidator.validate_field true c spec =
      CaseValidator.validate_field false c spec := by
  unfold hitsTypeRule at h
  rw [Bool.and_eq_false_iff] at h
  unfold CaseValidator.validate_field
  rcases h with h | h
  · have h1 : c.pyGet spec.name = Value.vnone := by
      simpa using h
    simp [h1]
  · have h2 : isinstanceAny (c.pyGet spec.name) spec.field_type = true := by
      simpa using h
    simp [h2]

/-- In rule 2, both modes emit the one type-mismatch issue; strict mode
pins its severity to Error, non-strict keeps Error-if-required. -/
theorem validate_field_type_rule_severities (c : CaseRecord) (spec : FieldSpec)
    (h : hitsTypeRule c spec = true) :
    (CaseValidator.validate_field true c spec).2 =
      [{ field := spec.name, severity := .error,
         message := "Expected type " ++ fieldTypeRepr spec.field_type ++ ", got " ++
           (c.pyGet spec.name).typeName,
         value := .vstr (c.pyGet spec.name).typeName }] ∧
    (CaseValidator.validate_field false c spec).2 =
      [{ field := spec.name,
         severity := if spec.required then .error else .warning,
         message := "Expected type " ++ fieldTypeRepr spec.field_type ++ ", got " ++
           (c.pyGet spec.name).typeName,
         value := .vstr (c.pyGet spec.name).typeName }] := by
  unfold hitsTypeRule at h
  rw [Bool.and_eq_true] at h
  have h1 : ¬ (c.pyGet spec.name = Value.vnone) := by
    simpa using h.1
  have h2 : isinstanceAny (c.pyGet spec.name) spec.field_type = false := by
    simpa using h.2
  unfold CaseValidator.validate_field
  constructor
  · simp [h1, h2]
  · simp [h1, h2]

/-- The per-field loop of `validate` produces the same `field_scores` dict
in both modes, whatever issue accumulators the two runs carry. -/
theorem validate_scores_fold_strict (c : CaseRecord) (sch : List FieldSpec)
    (fs : List (String × ℚ)) (is1 is2 : List ValidationIssue) :
    (sch.foldl (fun acc spec =>
        (dictSet acc.1 spec.name (CaseValidator.validate_field true c spec).1,
         acc.2 ++ (CaseValidator.validate_field true c spec).2)) (fs, is1)).1 =
    (sch.foldl (fun acc spec =>
        (dictSet acc.1 spec.name (CaseValidator.validate_field false c spec).1,
         acc.2 ++ (CaseValidator.validate_field false c spec).2)) (fs, is2)).1 := by
  induction sch generalizing fs is1 is2 with
  | nil => rfl
  | cons spec rest ih =>
    simp only [List.foldl_cons]
    rw [validate_field_score_strict_irrel c spec]
    exact ih _ _ _

/-- Substitute equal `field_scores` dicts in the completeness expression. -/
theorem completeness_expr_congr (sch : List FieldSpec) (fs1 fs2 : List (String × ℚ))
    (h : fs1 = fs2) :
    (if 0 < (sch.map FieldSpec.weight).sum then
        (sch.map (fun spec => dictGetD fs1 spec.name 0 * spec.weight)).sum /
          (sch.map FieldSpec.weight).sum
      else 0) =
    (if 0 < (sch.map FieldSpec.weight).sum then
        (sch.map (fun spec => dictGetD fs2 spec.name 0 * spec.weight)).sum /
          (sch.map FieldSpec.weight).sum
      else 0) := by
  rw [h]

/-- C5: strict and non-strict validators produce identical results except on
fields hitting rule 2 (type mismatch): `case_id`, every field score and the
completeness score coincide, a field not hitting rule 2 yields the identical
score-and-issues pair in both modes, and a field hitting rule 2 yields the
same single issue in both modes except that strict escalates its severity to
Error while non-strict keeps Error-if-required-else-Warning. -/
theorem validator_strict_only_escalates_type_mismatch (sch : List FieldSpec)
    (c : CaseRecord) (spec : FieldSpec) :
    ((CaseValidator.mk sch true).validate c).case_id =
      ((CaseValidator.mk sch false).validate c).case_id ∧
    ((CaseValidator.mk sch true).validate c).field_scores =
      ((CaseValidator.mk sch false).validate c).field_scores ∧
    ((CaseValidator.mk sch true).validate c).completeness_score =
      ((CaseValidator.mk sch false).validate c).completeness_score ∧
    (CaseValidator.validate_field true c spec).1 =
      (CaseValidator.validate_field false c spec).1 ∧
    (hitsTypeRule c spec = false →
      CaseValidator.validate_field true c spec =
        CaseValidator.validate_field false c spec) ∧
    (hitsTypeRule c spec = true →
      (CaseValidator.validate_field true c spec).2 =
        [{ field := spec.name, severity := .error,
           message := "Expected type " ++ fieldTypeRepr spec.field_type ++ ", got " ++
             (c.pyGet spec.name).typeName,
           value := .vstr (c.pyGet spec.name).typeName }] ∧
      (CaseValidator.validate_field false c spec).2 =
        [{ field := spec.name,
           severity := if spec.required then .error else .warning,
           message := "Expected type " ++ fieldTypeRepr spec.field_type ++ ", got " ++
             (c.pyGet spec.name).typeName,
           value := .vstr (c.pyGet spec.name).typeName }]) :=
  ⟨rfl,
   validate_scores_fold_strict c sch [] [] [],
   completeness_expr_congr sch _ _ (validate_scores_fold_strict c sch [] [] []),
   validate_field_score_strict_irrel c spec,
   validate_field_strict_irrel_of_no_type_rule c spec,
   validate_field_type_rule_severities c spec⟩

theorem validator_strict_only_escalates_type_mismatch_witness :
    CaseValidator.validate_field true [("year", Value.vstr "1999")]
        { name := "year", required := false, field_type := [.pstr] } =
      CaseValidator.validate_field false [("year", Value.vstr "1999")]
        { name := "year", required := false, field_type := [.pstr] } :=
  (validator_strict_only_escalates_type_mismatch
    [{ name := "year", required := false, field_type := [.pstr] }]
    [("year", Value.vstr "1999")]
    { name := "year", required := false, field_type := [.pstr] }).2.2.2.2.1 rfl

/-! ### List/sort infrastructure for the dedup theorems -/

theorem mem_insertDescBy {α : Type} (key : α → ℚ) (x a : α) (l : List α) :
    a ∈ insertDescBy key x l ↔ a = x ∨ a ∈ l := by
  induction l with
  | nil => simp [insertDescBy]
  | cons y ys ih =>
    by_cases h : key y ≤ key x
    · simp [insertDescBy, h]
    · simp [insertDescBy, h, ih]
      tauto

theorem mem_sortDescBy {α : Type} (key : α → ℚ) (a : α) (l : List α) :
    a ∈ sortDescBy key l ↔ a ∈ l := by
  induction l with
  | nil => simp [sortDescBy]
  | cons x xs ih =>
    simp only [sortDescBy, List.foldr_cons] at *
    rw [mem_insertDescBy, ih, List.mem_cons]

theorem perm_insertDescBy {α : Type} (key : α → ℚ) (x : α) (l : List α) :
    (insertDescBy key x l).Perm (x :: l) := by
  induction l with
  | nil => simp [insertDescBy]
  | cons y ys ih =>
    by_cases h : key y ≤ key x
    · simp [insertDescBy, h]
    · simp only [insertDescBy, h, if_false]
      exact ((ih.cons y).trans (List.Perm.swap x y ys))

theorem perm_sortDescBy {α : Type} (key : α → ℚ) (l : List α) :
    (sortDescBy key l).Perm l := by
  induction l with
  | nil => simp [sortDescBy]
  | cons x xs ih =>
    simp only [sortDescBy, List.foldr_cons] at *
    exact (perm_insertDescBy key x _).trans (ih.cons x)

theorem pairwise_insertDescBy {α : Type} (key : α → ℚ) (x : α) (l : List α)
    (h : List.Pairwise (fun a b => key b ≤ key a) l) :
    List.Pairwise (fun a b => key b ≤ key a) (insertDescBy key x l) := by
  induction l with
  | nil => simp [insertDescBy]
  | cons y ys ih =>
    rcases List.pairwise_cons.mp h with ⟨hy, hys⟩
    by_cases hc : key y ≤ key x
    · rw [insertDescBy, if_pos hc]
      refine List.pairwise_cons.mpr ⟨?_, h⟩
      intro z hz
      rcases List.mem_cons.mp hz with rfl | hz
      · exact hc
      · exact le_trans (hy z hz) hc
    · rw [insertDescBy, if_neg hc]
      refine List.pairwise_cons.mpr ⟨?_, ih hys⟩
      intro z hz
      rcases (mem_insertDescBy key x z ys).mp hz with rfl | hz
      · exact le_of_lt (lt_of_not_le hc)
      · exact hy z hz

theorem pairwise_sortDescBy {α : Type} (key : α → ℚ) (l : List α) :
    List.Pairwise (fun a b => key b ≤ key a) (sortDescBy key l) := by
  induction l with
  | nil => simp [sortDescBy]
  | cons x xs ih =>
    simp only [sortDescBy, List.foldr_cons] at *
    exact pairwise_insertDescBy key x _ ih

/-- A fold preserves any invariant its step preserves. -/
theorem foldl_preserves {α β : Type} (P : α → Prop) (f : α → β → α) (l : List β)
    (acc : α) (hacc : P acc) (hf : ∀ a b, P a → P (f a b)) : P (l.foldl f acc) := by
  induction l generalizing acc with
  | nil => exact hacc
  | cons x xs ih => exact ih _ (hf _ _ hacc)

/-! ### C3 — `DuplicateDetector.add` frame effect -/

/-- A 64-bit fingerprinter whose md5 parameter is the zero function (the
digest values are irrelevant to the properties checked on it). -/
def cexFingerprinter : ContentFingerprinter :=
  { hash_bits := 64, ngram_size := 3, normalize := true, md5Num := fun _ => 0 }

/-- An empty detector over `cexFingerprinter` with the default threshold. -/
def cexDetEmpty : DuplicateDetector :=
  { threshold := 17/20, fingerprinter := cexFingerprinter,
    fingerprints := [], exact_hashes := [], cases := [] }

/-- C3 counterexample: the claim as stated requires the exact digest to be
stored for an id exactly when the record's text field is non-empty, with no
stale entry surviving a re-add.  False: re-adding id "x" with an empty text
field (after a first add with text "a") leaves the stale digest in place,
because `add` only ever writes the digest key and never deletes it. -/
theorem add_stale_digest_cex :
    ¬ (∀ (sha : String → String) (d : DuplicateDetector) (cid : String)
         (c : CaseRecord) (tf : String), CaseRecord.textFieldOk c tf = true →
         CaseRecord.textAt c tf = "" →
         dictGet (DuplicateDetector.add sha d cid c tf).exact_hashes cid = none) := by
  intro h
  have hx := h (fun s => s)
    (DuplicateDetector.add (fun s => s) cexDetEmpty "x" [("text", Value.vstr "a")] "text")
    "x" [] "text" rfl rfl
  rw [show dictGet (DuplicateDetector.add (fun s => s)
      (DuplicateDetector.add (fun s => s) cexDetEmpty "x" [("text", Value.vstr "a")] "text")
      "x" [] "text").exact_hashes "x" = some "a" from rfl] at hx
  exact Option.noConfusion hx

/-- C3 (amended): `add` stores the SimHash fingerprint and the retained
record for the id, overwrites the exact digest only when the new text is
non-empty (an empty text leaves any previous digest for that id in place),
and leaves every other id's entries and the configuration unchanged. -/
theorem add_frame_effect (sha : String → String) (d : DuplicateDetector)
    (cid : String) (c : CaseRecord) (tf : String)
    (_hok : CaseRecord.textFieldOk c tf = true) :
    dictGet (DuplicateDetector.add sha d cid c tf).fingerprints cid =
      some (d.fingerprinter.fingerprint (CaseRecord.textAt c tf)) ∧
    dictGet (DuplicateDetector.add sha d cid c tf).cases cid = some c ∧
    dictGet (DuplicateDetector.add sha d cid c tf).exact_hashes cid =
      (if CaseRecord.textAt c tf ≠ "" then some (sha (CaseRecord.textAt c tf))
       else dictGet d.exact_hashes cid) ∧
    (DuplicateDetector.add sha d cid c tf).threshold = d.threshold ∧
    (DuplicateDetector.add sha d cid c tf).fingerprinter = d.fingerprinter ∧
    (∀ j, j ≠ cid →
      dictGet (DuplicateDetector.add sha d cid c tf).fingerprints j =
        dictGet d.fingerprints j ∧
      dictGet (DuplicateDetector.add sha d cid c tf).exact_hashes j =
        dictGet d.exact_hashes j ∧
      dictGet (DuplicateDetector.add sha d cid c tf).cases j = dictGet d.cases j) := by
  by_cases ht : CaseRecord.textAt c tf = ""
  · refine ⟨?_, ?_, ?_, ?_, ?_, ?_⟩ <;>
      simp [DuplicateDetector.add, ht, dictGet_dictSet_same]
    intro j hj
    exact ⟨dictGet_dictSet_other _ _ _ _ hj, dictGet_dictSet_other _ _ _ _ hj⟩
  · refine ⟨?_, ?_, ?_, ?_, ?_, ?_⟩ <;>
      simp [DuplicateDetector.add, ht, dictGet_dictSet_same]
    intro j hj
    exact ⟨dictGet_dictSet_other _ _ _ _ hj, dictGet_dictSet_other _ _ _ _ hj,
      dictGet_dictSet_other _ _ _ _ hj⟩

theorem add_frame_effect_witness :
    CaseRecord.textFieldOk [("text", Value.vstr "a")] "text" = true ∧
    dictGet (DuplicateDetector.add (fun s => s) cexDetEmpty "x"
        [("text", Value.vstr "a")] "text").cases "x" = some [("text", Value.vstr "a")] :=
  ⟨rfl, (add_frame_effect (fun s => s) cexDetEmpty "x"
    [("text", Value.vstr "a")] "text" rfl).2.1⟩

/-! ### C8 — `DuplicateDetector.add_batch` -/

/-- C8 counterexample: the claim as stated applies `add` to every record
whose id field is non-null.  False: the source guard is Python truthiness
(`if case_id:`), so the record with the non-null id `0` is skipped entirely
— the detector is returned unchanged and nothing is indexed. -/
theorem add_batch_skips_falsy_id_cex :
    CaseRecord.pyGet [("id", Value.vint 0), ("text", Value.vstr "hi")] "id" ≠
      Value.vnone ∧
    DuplicateDetector.add_batch (fun s => s) cexDetEmpty
      [[("id", Value.vint 0), ("text", Value.vstr "hi")]] "id" "text" = cexDetEmpty ∧
    dictGet (DuplicateDetector.add_batch (fun s => s) cexDetEmpty
      [[("id", Value.vint 0), ("text", Value.vstr "hi")]] "id" "text").fingerprints
      "0" = none :=
  ⟨fun h => Value.noConfusion h, rfl, rfl⟩

/-- C8 (amended): `add_batch` applies `add`, in input order, exactly to the
records whose id field is truthy (non-null, non-zero, non-empty), coercing
each such id to its string form; records with a null — or otherwise falsy —
id are skipped and leave the index unchanged. -/
theorem add_batch_adds_truthy_ids (sha : String → String) (d : DuplicateDetector)
    (cs : List CaseRecord) (id_field text_field : String) :
    DuplicateDetector.add_batch sha d cs id_field text_field =
      (cs.filter (fun c => (CaseRecord.pyGet c id_field).isTruthy)).foldl
        (fun st c =>
          DuplicateDetector.add sha st (CaseRecord.pyGet c id_field).pyToString c
            text_field) d := by
  induction cs generalizing d with
  | nil => rfl
  | cons c rest ih =>
    by_cases h : (CaseRecord.pyGet c id_field).isTruthy
    · have step : DuplicateDetector.add_batch sha d (c :: rest) id_field text_field =
          DuplicateDetector.add_batch sha
            (DuplicateDetector.add sha d (CaseRecord.pyGet c id_field).pyToString c
              text_field) rest id_field text_field := by
        unfold DuplicateDetector.add_batch
        rw [List.foldl_cons]
        simp [h]
      rw [step, ih, List.filter_cons, if_pos (by simpa using h), List.foldl_cons]
    · have step : DuplicateDetector.add_batch sha d (c :: rest) id_field text_field =
          DuplicateDetector.add_batch sha d rest id_field text_field := by
        unfold DuplicateDetector.add_batch
        rw [List.foldl_cons]
        simp [h]
      rw [step, ih, List.filter_cons, if_neg (by simpa using h)]

/-! ### C2 — `DuplicateDetector.find_duplicates` pair methods -/

/-- A detector indexing two ids with an identical exact digest and an empty
fingerprint map (its exact phase emits one pair; its near phase scans no
pairs). -/
def cexDetEH : DuplicateDetector :=
  { threshold := 17/20, fingerprinter := cexFingerprinter,
    fingerprints := [], exact_hashes := [("a", "h"), ("b", "h")], cases := [] }

/-- C2 counterexample: the claim as stated says every emitted pair has
method "exact" or "near".  False: the source labels the phases
"exact_hash" and "simhash"; the exact-phase pair of `cexDetEH` carries
method "exact_hash", which is neither. -/
theorem find_duplicates_method_cex :
    ¬ (∀ (d : DuplicateDetector), ∀ p ∈ d.find_duplicates,
        p.method = "exact" ∨ p.method = "near") := by
  intro h
  have hm := h cexDetEH
    { id_a := "a", id_b := "b", similarity := 1, method := "exact_hash" }
    (by rw [show cexDetEH.find_duplicates =
          [{ id_a := "a", id_b := "b", similarity := 1, method := "exact_hash" }]
        from rfl]
        exact List.mem_singleton.mpr rfl)
  rcases hm with hm | hm
  · exact absurd hm (by decide)
  · exact absurd hm (by decide)

/-- C2 (amended): every DuplicatePair returned by `find_duplicates` has
method "exact_hash" or "simhash"; every exact-phase pair (grouped by
identical exact digest) has method "exact_hash" and similarity 1.0, and
every near-phase pair has method "simhash". -/
theorem find_duplicates_method_invariant (d : DuplicateDetector) :
    ∀ p ∈ d.find_duplicates,
      (p.method = "exact_hash" ∧ p.similarity = 1) ∨ p.method = "simhash" := by
  intro p hp
  simp only [DuplicateDetector.find_duplicates] at hp
  rw [mem_sortDescBy] at hp
  revert hp
  refine foldl_preserves
    (fun acc : List (String × String) × List DuplicatePair =>
      ∀ q ∈ acc.2,
        (q.method = "exact_hash" ∧ q.similarity = 1) ∨ q.method = "simhash")
    _ _ _ ?_ ?_ p
  · -- the phase-1 accumulator satisfies the invariant
    refine foldl_preserves
      (fun acc : List (String × String) × List DuplicatePair =>
        ∀ q ∈ acc.2,
          (q.method = "exact_hash" ∧ q.similarity = 1) ∨ q.method = "simhash")
      _ _ _ ?_ ?_
    · intro q hq
      simp at hq
    · intro a g ha
      by_cases hg : 1 < g.2.length
      · show ∀ q ∈ (if 1 < g.2.length then _ else a).2, _
        rw [if_pos hg]
        refine foldl_preserves
          (fun acc : List (String × String) × List DuplicatePair =>
            ∀ q ∈ acc.2,
              (q.method = "exact_hash" ∧ q.similarity = 1) ∨ q.method = "simhash")
          _ _ _ ha ?_
        intro a2 pr ha2 q2 hq2
        split_ifs at hq2
        · exact ha2 q2 hq2
        · rcases List.mem_append.mp hq2 with hm | hm
          · exact ha2 q2 hm
          · rcases List.mem_singleton.mp hm with rfl
            exact Or.inl ⟨rfl, rfl⟩
      · show ∀ q ∈ (if 1 < g.2.length then _ else a).2, _
        rw [if_neg hg]
        exact ha
  · -- every phase-2 step preserves the invariant
    intro a pr ha q hq
    split_ifs at hq
    · exact ha q hq
    · rcases List.mem_append.mp hq with hm | hm
      · exact ha q hm
      · rcases List.mem_singleton.mp hm with rfl
        exact Or.inr rfl
    · exact ha q hq

/-! ### C9 — `DuplicateDetector.find_similar` -/

/-- The near-neighbor candidate list of `find_similar`: one "simhash" pair
for every indexed id other than the target, scored against the target's
fingerprint. -/
def findSimilarCandidates (d : DuplicateDetector) (cid : String) : List DuplicatePair :=
  (d.fingerprints.filter (fun kv => kv.1 != cid)).map
    (fun kv => { id_a := cid, id_b := kv.1,
                 similarity :=
                   d.fingerprinter.similarity (dictGetD d.fingerprints cid 0) kv.2,
                 method := "simhash" })

/-- A detector indexing two ids whose fingerprints are both the zero
sentinel (their mutual similarity is 1 by the both-zero rule). -/
def cexDetZero : DuplicateDetector :=
  { threshold := 17/20, fingerprinter := cexFingerprinter,
    fingerprints := [("a", 0), ("b", 0)], exact_hashes := [], cases := [] }

/-- C9 counterexample: the claim as stated says every pair returned by
`find_similar` has method "near".  False: the source labels them "simhash",
as the successful query on `cexDetZero` shows. -/
theorem find_similar_method_cex :
    ¬ (∀ (d : DuplicateDetector) (cid : String) (k : ℕ) (res : List DuplicatePair),
        d.find_similar cid k = Except.ok res → ∀ p ∈ res, p.method = "near") := by
  intro h
  have hm := h cexDetZero "a" 2
    [{ id_a := "a", id_b := "b", similarity := 1, method := "simhash" }] rfl
    { id_a := "a", id_b := "b", similarity := 1, method := "simhash" }
    (List.mem_singleton.mpr rfl)
  exact absurd hm (by decide)

/-- C9 (amended): `find_similar` fails with the not-found error exactly when
the id is absent from the fingerprint index (the query reads but never
mutates the index, which the pure embedding makes implicit); when present it
scores the target against every other indexed id and returns the `top_k`
pairs of highest similarity, sorted by similarity descending, each with
method "simhash". -/
theorem find_similar_spec (d : DuplicateDetector) (cid : String) (k : ℕ) :
    ((∃ msg, d.find_similar cid k = Except.error msg) ↔
      dictGet d.fingerprints cid = none) ∧
    (∀ res, d.find_similar cid k = Except.ok res →
      List.Pairwise (fun a b => b.similarity ≤ a.similarity) res ∧
      res.length = min k (findSimilarCandidates d cid).length ∧
      (∀ p ∈ res, p.id_a = cid ∧ p.method = "simhash") ∧
      ∃ rest, (res ++ rest).Perm (findSimilarCandidates d cid) ∧
        ∀ p ∈ res, ∀ q ∈ rest, q.similarity ≤ p.similarity) := by
  cases hcid : dictGet d.fingerprints cid with
  | none =>
    constructor
    · constructor
      · intro _
        rfl
      · intro _
        exact ⟨"Case " ++ cid ++ " not in index", by
          simp [DuplicateDetector.find_similar, hcid]⟩
    · intro res hres
      rw [show d.find_similar cid k =
          Except.error ("Case " ++ cid ++ " not in index") by
        simp [DuplicateDetector.find_similar, hcid]] at hres
      exact Except.noConfusion hres
  | some fp0 =>
    have hcand : findSimilarCandidates d cid =
        (d.fingerprints.filter (fun kv => kv.1 != cid)).map
          (fun kv => { id_a := cid, id_b := kv.1,
                       similarity := d.fingerprinter.similarity fp0 kv.2,
                       method := "simhash" }) := by
      simp [findSimilarCandidates, dictGetD, hcid]
    have hok : d.find_similar cid k =
        Except.ok ((sortDescBy DuplicatePair.similarity
          (findSimilarCandidates d cid)).take k) := by
      rw [hcand]
      simp [DuplicateDetector.find_similar, hcid]
    constructor
    · constructor
      · rintro ⟨msg, hmsg⟩
        rw [hok] at hmsg
        exact Except.noConfusion hmsg
      · intro hnone
        exact Option.noConfusion hnone
    · intro res hres
      rw [hok] at hres
      have hres2 : res = (sortDescBy DuplicatePair.similarity
          (findSimilarCandidates d cid)).take k := by
        injection hres with h
        exact h.symm
      subst hres2
      have hpw := pairwise_sortDescBy DuplicatePair.similarity
        (findSimilarCandidates d cid)
      refine ⟨?_, ?_, ?_, ?_⟩
      · exact List.Pairwise.sublist (List.take_sublist _ _) hpw
      · rw [List.length_take,
          (perm_sortDescBy DuplicatePair.similarity
            (findSimilarCandidates d cid)).length_eq]
      · intro p hp
        have hmem : p ∈ findSimilarCandidates d cid := by
          rw [← mem_sortDescBy DuplicatePair.similarity]
          exact List.mem_of_mem_take hp
        rw [hcand] at hmem
        rcases List.mem_map.mp hmem with ⟨kv, _, rfl⟩
        exact ⟨rfl, rfl⟩
      · refine ⟨(sortDescBy DuplicatePair.similarity
          (findSimilarCandidates d cid)).drop k, ?_, ?_⟩
        · rw [List.take_append_drop]
          exact perm_sortDescBy DuplicatePair.similarity _
        · intro p hp q hq
          have := hpw
          rw [← List.take_append_drop k (sortDescBy DuplicatePair.similarity
            (findSimilarCandidates d cid))] at this
          exact (List.pairwise_append.mp this).2.2 p hp q hq

theorem find_similar_spec_witness :
    dictGet cexDetZero.fingerprints "zz" = none ∧
    List.Pairwise (fun a b : DuplicatePair => b.similarity ≤ a.similarity)
      ([{ id_a := "a", id_b := "b", similarity := 1, method := "simhash" }] :
        List DuplicatePair) :=
  ⟨(find_similar_spec cexDetZero "zz" 2).1.mp ⟨"Case zz not in index", rfl⟩,
   ((find_similar_spec cexDetZero "a" 2).2
     [{ id_a := "a", id_b := "b", similarity := 1, method := "simhash" }] rfl).1⟩

/-! ### C6 — `ContentFingerprinter.similarity` bounds -/

/-- A number below `2 ^ k` has at most `k` set bits, whatever the fuel. -/
theorem popCountFuel_le_of_lt_two_pow (fuel k n : ℕ) (h : n < 2 ^ k) :
    popCountFuel fuel n ≤ k := by
  induction fuel generalizing k n with
  | zero => simp [popCountFuel]
  | succ f ih =>
    cases n with
    | zero => simp [popCountFuel]
    | succ m =>
      have hk : k ≠ 0 := by
        intro h0
        subst h0
        simp at h
      obtain ⟨k2, rfl⟩ : ∃ k2, k = k2 + 1 := ⟨k - 1, by omega⟩
      have h2 : (m + 1) / 2 < 2 ^ k2 := by
        have hp : 2 ^ (k2 + 1) = 2 * 2 ^ k2 := by ring
        rw [hp] at h
        exact Nat.div_lt_of_lt_mul h
      have h3 : (m + 1) % 2 ≤ 1 := by omega
      calc popCountFuel (f + 1) (m + 1)
          = (m + 1) % 2 + popCountFuel f ((m + 1) / 2) := rfl
        _ ≤ 1 + k2 := Nat.add_le_add h3 (ih k2 _ h2)
        _ = k2 + 1 := by omega

/-- `popCount n ≤ k` whenever `n < 2 ^ k`. -/
theorem popCount_le_of_lt_two_pow (k n : ℕ) (h : n < 2 ^ k) : popCount n ≤ k :=
  popCountFuel_le_of_lt_two_pow n k n h

/-- C6: for fingerprints of the configured width, `similarity` lies in
`[0, 1]`: it is 1 when both are 0, 0 when exactly one is 0, and otherwise
the normalized Hamming similarity `1 - popcount(a XOR b) / hash_bits`,
bounded because the XOR of two `hash_bits`-wide integers has at most
`hash_bits` set bits. -/
theorem similarity_in_unit_interval (md5Num : String → ℕ)
    (hash_bits ngram_size : ℕ) (normalize : Bool) (fp : ContentFingerprinter)
    (hinit : ContentFingerprinter.init md5Num hash_bits ngram_size normalize =
      Except.ok fp)
    (a b : ℕ) (ha : a < 2 ^ fp.hash_bits) (hb : b < 2 ^ fp.hash_bits) :
    0 ≤ fp.similarity a b ∧ fp.similarity a b ≤ 1 ∧
    (a = 0 → b = 0 → fp.similarity a b = 1) ∧
    ((a = 0 ∧ b ≠ 0) ∨ (a ≠ 0 ∧ b = 0) → fp.similarity a b = 0) ∧
    (a ≠ 0 → b ≠ 0 →
      fp.similarity a b = 1 - (popCount (a ^^^ b) : ℚ) / (fp.hash_bits : ℚ)) := by
  have hbits : fp.hash_bits = 64 ∨ fp.hash_bits = 128 := by
    unfold ContentFingerprinter.init at hinit
    split at hinit
    · rename_i hcond
      injection hinit with h2
      rw [← h2]
      exact hcond
    · exact Except.noConfusion hinit
  have hpos : 0 < fp.hash_bits := by
    rcases hbits with h | h <;> simp [h]
  have hxor : a ^^^ b < 2 ^ fp.hash_bits := Nat.xor_lt_two_pow ha hb
  have hpc : popCount (a ^^^ b) ≤ fp.hash_bits :=
    popCount_le_of_lt_two_pow _ _ hxor
  have hq1 : (0 : ℚ) ≤ (popCount (a ^^^ b) : ℚ) / (fp.hash_bits : ℚ) :=
    div_nonneg (Nat.cast_nonneg _) (Nat.cast_nonneg _)
  have hq2 : (popCount (a ^^^ b) : ℚ) / (fp.hash_bits : ℚ) ≤ 1 := by
    rw [div_le_one (by exact_mod_cast hpos)]
    exact_mod_cast hpc
  refine ⟨?_, ?_, ?_, ?_, ?_⟩
  · by_cases hA : a = 0 <;> by_cases hB : b = 0 <;>
      simp [ContentFingerprinter.similarity, hA, hB] <;> linarith
  · by_cases hA : a = 0 <;> by_cases hB : b = 0 <;>
      simp [ContentFingerprinter.similarity, hA, hB] <;> linarith
  · intro hA hB
    simp [ContentFingerprinter.similarity, hA, hB]
  · rintro (⟨hA, hB⟩ | ⟨hA, hB⟩) <;>
      simp [ContentFingerprinter.similarity, hA, hB]
  · intro hA hB
    simp [ContentFingerprinter.similarity, hA, hB]

theorem similarity_in_unit_interval_witness :
    0 ≤ cexFingerprinter.similarity 5 6 ∧ cexFingerprinter.similarity 5 6 ≤ 1 :=
  ⟨(similarity_in_unit_interval (fun _ => 0) 64 3 true cexFingerprinter rfl 5 6
      (by decide) (by decide)).1,
   (similarity_in_unit_interval (fun _ => 0) 64 3 true cexFingerprinter rfl 5 6
      (by decide) (by decide)).2.1⟩

/-! ### C7 — `QualityReporter.analyze` vs `analyze_results` -/

/-- Every field of the aggregate except the timestamp is independent of the
`now` argument. -/
theorem aggregate_now_irrel (now1 now2 : String) (results : List ValidationResult) :
    (QualityReporter.aggregate now1 results).total_cases =
      (QualityReporter.aggregate now2 results).total_cases ∧
    (QualityReporter.aggregate now1 results).valid_cases =
      (QualityReporter.aggregate now2 results).valid_cases ∧
    (QualityReporter.aggregate now1 results).invalid_cases =
      (QualityReporter.aggregate now2 results).invalid_cases ∧
    (QualityReporter.aggregate now1 results).avg_completeness =
      (QualityReporter.aggregate now2 results).avg_completeness ∧
    (QualityReporter.aggregate now1 results).field_completeness =
      (QualityReporter.aggregate now2 results).field_completeness ∧
    (QualityReporter.aggregate now1 results).severity_counts =
      (QualityReporter.aggregate now2 results).severity_counts ∧
    (QualityReporter.aggregate now1 results).top_issues =
      (QualityReporter.aggregate now2 results).top_issues ∧
    (QualityReporter.aggregate now1 results).completeness_distribution =
      (QualityReporter.aggregate now2 results).completeness_distribution := by
  by_cases h : results.length = 0 <;>
    simp [QualityReporter.aggregate, h]

/-- C7: for every list of records, `analyze` returns the same QualityReport
as `analyze_results` applied to `validate_batch` of the same records, in
every field except the `generated_at` timestamp — both entry points apply
the same aggregation routine to the same sequence of ValidationResults. -/
theorem analyze_eq_analyze_results (rep : QualityReporter) (now1 now2 : String)
    (cs : List CaseRecord) :
    (rep.analyze now1 cs).total_cases =
      (rep.analyze_results now2 (rep.validator.validate_batch cs)).total_cases ∧
    (rep.analyze now1 cs).valid_cases =
      (rep.analyze_results now2 (rep.validator.validate_batch cs)).valid_cases ∧
    (rep.analyze now1 cs).invalid_cases =
      (rep.analyze_results now2 (rep.validator.validate_batch cs)).invalid_cases ∧
    (rep.analyze now1 cs).avg_completeness =
      (rep.analyze_results now2 (rep.validator.validate_batch cs)).avg_completeness ∧
    (rep.analyze now1 cs).field_completeness =
      (rep.analyze_results now2 (rep.validator.validate_batch cs)).field_completeness ∧
    (rep.analyze now1 cs).severity_counts =
      (rep.analyze_results now2 (rep.validator.validate_batch cs)).severity_counts ∧
    (rep.analyze now1 cs).top_issues =
      (rep.analyze_results now2 (rep.validator.validate_batch cs)).top_issues ∧
    (rep.analyze now1 cs).completeness_distribution =
      (rep.analyze_results now2
        (rep.validator.validate_batch cs)).completeness_distribution :=
  aggregate_now_irrel now1 now2 (rep.validator.validate_batch cs)

theorem find_duplicates_method_invariant_witness :
    (({ id_a := "a", id_b := "b", similarity := 1, method := "exact_hash" } :
        DuplicatePair).method = "exact_hash" ∧
      ({ id_a := "a", id_b := "b", similarity := 1, method := "exact_hash" } :
        DuplicatePair).similarity = 1) ∨
    ({ id_a := "a", id_b := "b", similarity := 1, method := "exact_hash" } :
        DuplicatePair).method = "simhash" :=
  find_duplicates_method_invariant cexDetEH
    { id_a := "a", id_b := "b", similarity := 1, method := "exact_hash" }
    (by rw [show cexDetEH.find_duplicates =
          [{ id_a := "a", id_b := "b", similarity := 1, method := "exact_hash" }]
        from rfl]
        exact List.mem_singleton.mpr rfl)
